import Mathlib

/-!
Verification of the two scripts of this repository against their specification.

The ingestion unit, ingest_data.py, walks the entries of a configured directory,
keeps those whose name ends in .csv, parses each as a CSV table and appends the
rows to the daily_reports table of the store.  The correlation unit,
3-correlation_analysis.py, projects the confirmed and deaths columns out of the
pre-existing cleaned_data table and computes the pairwise Pearson correlation
matrix of the two columns.

The store is modelled as an explicit value threaded through both units, a file
as its name together with the outcome of parsing it, and real-valued Pearson
correlation replaces the floating point computation of the library call.
-/

/-- A row of a tabular dataset: one list of textual fields per record, as
produced by parsing one line of a delimited text file. -/
abbrev Row := List String

/-- A directory entry as returned by os.listdir applied to the data directory:
the file name, and the outcome of reading the entry as a CSV table.  The value
none models pd.read_csv raising an exception on this entry, some rs a
successful parse yielding the rows rs. -/
structure DirEntry where
  name : String
  parsed : Option (List Row)

/-- A row of the pre-existing cleaned_data table, restricted to the two numeric
fields the correlation unit selects. -/
structure CleanedRow where
  confirmed : ℚ
  deaths : ℚ

/-- The persistent store: the daily_reports table written by the ingestion unit
and the pre-existing cleaned_data table read by the correlation unit. -/
structure Database where
  daily_reports : List Row
  cleaned_data : List CleanedRow

/-- The ways a run of the ingestion unit aborts: os.listdir raising because the
directory does not exist, pd.read_csv raising on an unparseable file, or
df.to_sql raising because the store is unreachable or rejects the write. -/
inductive IngestError where
  | dirNotFound
  | parseError
  | writeError
deriving DecidableEq

/-- The endswith test of Python strings, modelled on the underlying character
lists of the two strings. -/
def endswith (s suf : String) : Bool := suf.data.isSuffixOf s.data

/-- The filter applied by the ingestion loop to each directory entry: the file
name must end in the lowercase suffix .csv. -/
def qualifies (f : DirEntry) : Bool := endswith f.name ".csv"

/-- The df.to_sql call targeting daily_reports with the append mode: the parsed
rows are appended to the daily_reports table and cleaned_data is untouched. -/
def toSql (db : Database) (rows : List Row) : Database :=
  { db with daily_reports := db.daily_reports ++ rows }

/-- The ingestion loop of ingest_data.py over the directory listing: each entry
whose name ends in .csv is read with pd.read_csv and its rows are appended with
df.to_sql; an entry that fails to parse raises, which stops the loop at once
and leaves the table exactly as already written, with no rollback. -/
def ingestLoop : List DirEntry → Database → Database × Option IngestError
  | [], db => (db, none)
  | f :: fs, db =>
    if qualifies f then
      match f.parsed with
      | none => (db, some IngestError.parseError)
      | some rs => ingestLoop fs (toSql db rs)
    else ingestLoop fs db

/-- The whole ingestion unit: os.listdir either raises because the directory is
missing, modelled by the listing none, leaving the store untouched, or returns
the entries that the ingestion loop then processes. -/
def ingestData (listing : Option (List DirEntry)) (db : Database) :
    Database × Option IngestError :=
  match listing with
  | none => (db, some IngestError.dirNotFound)
  | some files => ingestLoop files db

/-- The rows of one directory entry when it parsed, and no rows otherwise. -/
def entryRows (f : DirEntry) : List Row := f.parsed.getD []

/-- All rows of the qualifying entries of a listing, in listing order. -/
def ingestRows (files : List DirEntry) : List Row :=
  ((files.filter qualifies).map entryRows).flatten

/-- The total row count over the qualifying files of a listing. -/
def totalRows (files : List DirEntry) : ℕ :=
  ((files.filter qualifies).map (fun f => (entryRows f).length)).sum

/-- An entry the ingestion loop can process without raising: if its name ends
in .csv then reading it as a CSV table succeeds. -/
def validEntry (f : DirEntry) : Prop := qualifies f = true → f.parsed.isSome = true

instance (f : DirEntry) : Decidable (validEntry f) := by
  unfold validEntry; infer_instance

/-- The rows appended and the error produced by one pass of the ingestion loop,
as a function of the listing alone; relating the loop to this trace separates
the appended rows from the starting state of the store. -/
def ingestTrace : List DirEntry → List Row × Option IngestError
  | [] => ([], none)
  | f :: fs =>
    if qualifies f then
      match f.parsed with
      | none => ([], some IngestError.parseError)
      | some rs => (rs ++ (ingestTrace fs).1, (ingestTrace fs).2)
    else ingestTrace fs

/-- The ingestion loop of ingest_data.py with the outcome of each df.to_sql
call made explicit: w f is true when the store accepts the write of the rows
of entry f, and false when the call raises instead, for instance because the
store is unreachable or rejects the rows over a type mismatch.  A rejected
write, like a failed parse, aborts the run at once, before the rows of the
failing file are stored, and nothing already appended is rolled back.  The
loop ingestLoop is this loop in the environment whose store accepts every
write. -/
def ingestLoopW (w : DirEntry → Bool) :
    List DirEntry → Database → Database × Option IngestError
  | [], db => (db, none)
  | f :: fs, db =>
    if qualifies f then
      match f.parsed with
      | none => (db, some IngestError.parseError)
      | some rs =>
        if w f then ingestLoopW w fs (toSql db rs)
        else (db, some IngestError.writeError)
    else ingestLoopW w fs db

/-- The whole ingestion unit with explicit write outcomes, the counterpart of
ingestData over ingestLoopW. -/
def ingestDataW (w : DirEntry → Bool) (listing : Option (List DirEntry))
    (db : Database) : Database × Option IngestError :=
  match listing with
  | none => (db, some IngestError.dirNotFound)
  | some files => ingestLoopW w files db

/-- The rows appended and the error produced by one pass of the ingestion loop
with explicit write outcomes, as a function of the listing and the write
outcomes alone. -/
def ingestTraceW (w : DirEntry → Bool) :
    List DirEntry → List Row × Option IngestError
  | [] => ([], none)
  | f :: fs =>
    if qualifies f then
      match f.parsed with
      | none => ([], some IngestError.parseError)
      | some rs =>
        if w f then (rs ++ (ingestTraceW w fs).1, (ingestTraceW w fs).2)
        else ([], some IngestError.writeError)
    else ingestTraceW w fs

/-- An entry the loop with write outcomes w passes through without raising: if
its name ends in .csv then its parse succeeds and the store accepts its
write. -/
def validEntryW (w : DirEntry → Bool) (f : DirEntry) : Prop :=
  qualifies f = true → (f.parsed.isSome = true ∧ w f = true)

instance (w : DirEntry → Bool) (f : DirEntry) : Decidable (validEntryW w f) := by
  unfold validEntryW; infer_instance

/-- The error the run ends in when entry bad is the first failing one: a parse
error when pd.read_csv raises on it, and otherwise a write error from its
df.to_sql call. -/
def abortError (bad : DirEntry) : IngestError :=
  if bad.parsed.isSome then IngestError.writeError else IngestError.parseError

/-- The arithmetic mean of a column, as used inside the covariance. -/
def mean (xs : List ℚ) : ℚ := xs.sum / (xs.length : ℚ)

/-- The sample covariance of two equal-length columns, with the library default
divisor of length minus one. -/
def cov (xs ys : List ℚ) : ℚ :=
  (List.zipWith (fun a b => (a - mean xs) * (b - mean ys)) xs ys).sum /
    ((xs.length - 1 : ℕ) : ℚ)

/-- The Pearson correlation coefficient of two columns, the covariance divided
by the product of the standard deviations: the quantity df.corr computes for
each pair of columns, in exact real arithmetic. -/
noncomputable def corr (xs ys : List ℚ) : ℝ :=
  (cov xs ys : ℝ) / (Real.sqrt (cov xs xs) * Real.sqrt (cov ys ys))

/-- The df.corr result on a two-column frame: the 2 by 2 matrix of pairwise
Pearson coefficients, index 0 naming the first column and 1 the second. -/
noncomputable def corrMatrix (xs ys : List ℚ) : Fin 2 → Fin 2 → ℝ :=
  fun i j => corr (if i = 0 then xs else ys) (if j = 0 then xs else ys)

/-- The pd.read_sql call issuing SELECT confirmed, deaths FROM cleaned_data: a
read-only query returning the store unchanged together with the two projected
columns of the cleaned_data table. -/
def readSql (db : Database) : Database × (List ℚ × List ℚ) :=
  (db,
    (db.cleaned_data.map CleanedRow.confirmed, db.cleaned_data.map CleanedRow.deaths))

/-- The correlation unit, 3-correlation_analysis.py: run the projection query
against the store, then compute df.corr on the resulting frame.  It returns
the store it leaves behind and the ephemeral in-memory correlation matrix. -/
noncomputable def correlationUnit (db : Database) :
    Database × (Fin 2 → Fin 2 → ℝ) :=
  ((readSql db).1, corrMatrix (readSql db).2.1 (readSql db).2.2)

theorem ingestLoop_eq_trace (fs : List DirEntry) (db : Database) :
    ingestLoop fs db =
      ({ db with daily_reports := db.daily_reports ++ (ingestTrace fs).1 },
        (ingestTrace fs).2) := by
  induction fs generalizing db with
  | nil => simp [ingestLoop, ingestTrace]
  | cons f fs ih =>
    by_cases hq : qualifies f = true
    · cases hp : f.parsed with
      | none => simp [ingestLoop, ingestTrace, hq, hp]
      | some rs =>
        simp [ingestLoop, ingestTrace, hq, hp, ih, toSql, List.append_assoc]
    · simp only [Bool.not_eq_true] at hq
      simp [ingestLoop, ingestTrace, hq, ih]

theorem ingestTrace_all_valid (fs : List DirEntry) (h : ∀ f ∈ fs, validEntry f) :
    ingestTrace fs = (ingestRows fs, none) := by
  induction fs with
  | nil => simp [ingestTrace, ingestRows]
  | cons f fs ih =>
    have hf : validEntry f := h f (by simp)
    have hrest : ∀ g ∈ fs, validEntry g := fun g hg => h g (by simp [hg])
    by_cases hq : qualifies f = true
    · obtain ⟨rs, hrs⟩ := Option.isSome_iff_exists.mp (hf hq)
      simp [ingestTrace, ingestRows, List.filter_cons, hq, hrs, ih hrest,
        entryRows]
    · simp only [Bool.not_eq_true] at hq
      simp [ingestTrace, ingestRows, List.filter_cons, hq, ih hrest]

theorem length_ingestRows (fs : List DirEntry) :
    (ingestRows fs).length = totalRows fs := by
  simp [ingestRows, totalRows, List.length_flatten, List.map_map, Function.comp_def]

theorem ingestTrace_skip (f : DirEntry) (hq : qualifies f = false)
    (pre post : List DirEntry) :
    ingestTrace (pre ++ f :: post) = ingestTrace (pre ++ post) := by
  induction pre with
  | nil => simp [ingestTrace, hq]
  | cons g pre ih =>
    by_cases hg : qualifies g = true
    · cases hp : g.parsed with
      | none => simp [ingestTrace, hg, hp]
      | some rs => simp [ingestTrace, hg, hp, ih]
    · simp only [Bool.not_eq_true] at hg
      simp [ingestTrace, hg, ih]

theorem ingestTrace_abort (pre : List DirEntry) (bad : DirEntry)
    (post : List DirEntry) (hpre : ∀ f ∈ pre, validEntry f)
    (hq : qualifies bad = true) (hbad : bad.parsed = none) :
    ingestTrace (pre ++ bad :: post) = (ingestRows pre, some IngestError.parseError) := by
  induction pre with
  | nil => simp [ingestTrace, ingestRows, hq, hbad]
  | cons g pre ih =>
    have hg : validEntry g := hpre g (by simp)
    have hrest : ∀ f ∈ pre, validEntry f := fun f hf => hpre f (by simp [hf])
    by_cases hgq : qualifies g = true
    · obtain ⟨rs, hrs⟩ := Option.isSome_iff_exists.mp (hg hgq)
      simp [ingestTrace, ingestRows, List.filter_cons, hgq, hrs, ih hrest,
        entryRows]
    · simp only [Bool.not_eq_true] at hgq
      simp [ingestTrace, ingestRows, List.filter_cons, hgq, ih hrest]

theorem ingestLoopW_eq_traceW (w : DirEntry → Bool) (fs : List DirEntry)
    (db : Database) :
    ingestLoopW w fs db =
      ({ db with daily_reports := db.daily_reports ++ (ingestTraceW w fs).1 },
        (ingestTraceW w fs).2) := by
  induction fs generalizing db with
  | nil => simp [ingestLoopW, ingestTraceW]
  | cons f fs ih =>
    by_cases hq : qualifies f = true
    · cases hp : f.parsed with
      | none => simp [ingestLoopW, ingestTraceW, hq, hp]
      | some rs =>
        by_cases hw : w f = true
        · simp [ingestLoopW, ingestTraceW, hq, hp, hw, ih, toSql,
            List.append_assoc]
        · simp only [Bool.not_eq_true] at hw
          simp [ingestLoopW, ingestTraceW, hq, hp, hw]
    · simp only [Bool.not_eq_true] at hq
      simp [ingestLoopW, ingestTraceW, hq, ih]

theorem ingestLoopW_all_accepted (fs : List DirEntry) (db : Database) :
    ingestLoopW (fun _ => true) fs db = ingestLoop fs db := by
  induction fs generalizing db with
  | nil => rfl
  | cons f fs ih =>
    by_cases hq : qualifies f = true
    · cases hp : f.parsed with
      | none => simp [ingestLoopW, ingestLoop, hq, hp]
      | some rs => simp [ingestLoopW, ingestLoop, hq, hp, ih]
    · simp only [Bool.not_eq_true] at hq
      simp [ingestLoopW, ingestLoop, hq, ih]

theorem ingestTraceW_abort (w : DirEntry → Bool) (pre : List DirEntry)
    (bad : DirEntry) (post : List DirEntry)
    (hpre : ∀ f ∈ pre, validEntryW w f) (hq : qualifies bad = true)
    (hbad : bad.parsed = none ∨ w bad = false) :
    ingestTraceW w (pre ++ bad :: post) =
      (ingestRows pre, some (abortError bad)) := by
  induction pre with
  | nil =>
    rcases hbad with hp | hw
    · simp [ingestTraceW, ingestRows, hq, hp, abortError]
    · cases hp : bad.parsed with
      | none => simp [ingestTraceW, ingestRows, hq, hp, abortError]
      | some rs => simp [ingestTraceW, ingestRows, hq, hp, hw, abortError]
  | cons g pre ih =>
    have hg := hpre g (by simp)
    have hrest : ∀ f ∈ pre, validEntryW w f := fun f hf => hpre f (by simp [hf])
    by_cases hgq : qualifies g = true
    · obtain ⟨hgs, hgw⟩ := hg hgq
      obtain ⟨rs, hrs⟩ := Option.isSome_iff_exists.mp hgs
      simp [ingestTraceW, ingestRows, List.filter_cons, hgq, hrs, hgw,
        ih hrest, entryRows]
    · simp only [Bool.not_eq_true] at hgq
      simp [ingestTraceW, ingestRows, List.filter_cons, hgq, ih hrest]

theorem cov_comm (xs ys : List ℚ) (h : xs.length = ys.length) :
    cov xs ys = cov ys xs := by
  unfold cov
  rw [h, List.zipWith_comm]
  have he : (fun b a => (a - mean xs) * (b - mean ys)) =
      (fun a b => (a - mean ys) * (b - mean xs)) := by
    funext b a; ring
  rw [he]

theorem corr_comm (xs ys : List ℚ) (h : xs.length = ys.length) :
    corr xs ys = corr ys xs := by
  unfold corr
  rw [cov_comm xs ys h, mul_comm]

theorem corr_self (xs : List ℚ) (h : 0 < cov xs xs) : corr xs xs = 1 := by
  unfold corr
  rw [Real.mul_self_sqrt (by exact_mod_cast h.le)]
  exact div_self (by exact_mod_cast h.ne')

theorem corr_proportional_example : corr [1, 2, 3, 4] [2, 4, 6, 8] = 1 := by
  have h1 : cov [1, 2, 3, 4] [2, 4, 6, 8] = 10/3 := by norm_num [cov, mean]
  have h2 : cov [1, 2, 3, 4] [1, 2, 3, 4] = 5/3 := by norm_num [cov, mean]
  have h3 : cov [2, 4, 6, 8] [2, 4, 6, 8] = 20/3 := by norm_num [cov, mean]
  unfold corr
  rw [h1, h2, h3]
  push_cast
  rw [← Real.sqrt_mul (by norm_num : (0:ℝ) ≤ 5/3)]
  rw [show (5/3 : ℝ) * (20/3) = (10/3)^2 by norm_num]
  rw [Real.sqrt_sq (by norm_num : (0:ℝ) ≤ 10/3)]
  norm_num

/-- Claim C1: for a directory of valid CSV files, ingestion into an initially
empty daily_reports table succeeds and leaves exactly the rows of all the
qualifying files in the table, so the final row count is the total row count
of those files. -/
theorem ingestion_appends_all_rows (cd : List CleanedRow) (fs : List DirEntry)
    (h : ∀ f ∈ fs, validEntry f) :
    (ingestData (some fs) ⟨[], cd⟩).1.daily_reports = ingestRows fs ∧
      (ingestData (some fs) ⟨[], cd⟩).1.daily_reports.length = totalRows fs ∧
      (ingestData (some fs) ⟨[], cd⟩).2 = none := by
  have ht := ingestLoop_eq_trace fs ⟨[], cd⟩
  rw [ingestTrace_all_valid fs h] at ht
  refine ⟨?_, ?_, ?_⟩ <;> simp [ingestData, ht, length_ingestRows]

/-- Witness for C1: a directory of two valid CSV files holding three rows in
total ends with three rows in the table. -/
theorem ingestion_appends_all_rows_witness :
    validEntry (DirEntry.mk "a.csv" (some [["1"], ["2"]])) ∧
      validEntry (DirEntry.mk "b.csv" (some [["3"]])) ∧
      (ingestData
          (some [DirEntry.mk "a.csv" (some [["1"], ["2"]]),
            DirEntry.mk "b.csv" (some [["3"]])])
          ⟨[], []⟩).1.daily_reports.length = 3 := by
  refine ⟨by decide, by decide, ?_⟩
  have h := (ingestion_appends_all_rows []
    [DirEntry.mk "a.csv" (some [["1"], ["2"]]), DirEntry.mk "b.csv" (some [["3"]])]
    (by decide)).2.1
  rw [h]
  decide

/-- Claim C4: running ingestion twice over the same listing on an initially
empty table appends the same rows twice over: the final table is the
single-run table repeated, and the row count is exactly doubled. -/
theorem ingestion_twice_doubles (cd : List CleanedRow) (fs : List DirEntry) :
    (ingestData (some fs) (ingestData (some fs) ⟨[], cd⟩).1).1.daily_reports =
        (ingestData (some fs) ⟨[], cd⟩).1.daily_reports ++
          (ingestData (some fs) ⟨[], cd⟩).1.daily_reports ∧
      (ingestData (some fs) (ingestData (some fs) ⟨[], cd⟩).1).1.daily_reports.length =
        2 * (ingestData (some fs) ⟨[], cd⟩).1.daily_reports.length := by
  simp [ingestData, ingestLoop_eq_trace, two_mul]

/-- Claim C5: an entry whose name does not end in .csv is skipped entirely:
removing it from the listing changes neither the outcome of the ingestion loop
nor, in particular, the resulting row count. -/
theorem non_csv_file_ignored (f : DirEntry) (h : endswith f.name ".csv" = false)
    (pre post : List DirEntry) (db : Database) :
    ingestLoop (pre ++ f :: post) db = ingestLoop (pre ++ post) db := by
  have hq : qualifies f = false := h
  rw [ingestLoop_eq_trace, ingestLoop_eq_trace, ingestTrace_skip f hq]

/-- Witness for C5: a text file sitting next to a CSV file leaves the run
exactly as it would have been without it. -/
theorem non_csv_file_ignored_witness :
    endswith "notes.txt" ".csv" = false ∧
      ingestLoop
          [DirEntry.mk "a.csv" (some [["1"]]), DirEntry.mk "notes.txt" (some [["x"]])]
          ⟨[], []⟩ =
        ingestLoop [DirEntry.mk "a.csv" (some [["1"]])] ⟨[], []⟩ := by
  refine ⟨by decide, ?_⟩
  exact non_csv_file_ignored (DirEntry.mk "notes.txt" (some [["x"]])) (by decide)
    [DirEntry.mk "a.csv" (some [["1"]])] [] ⟨[], []⟩

/-- Claim C6: ingestion from a missing directory fails up front with an error
and leaves the store, in particular the daily_reports table, unchanged. -/
theorem missing_directory_fails (db : Database) :
    ingestData none db = (db, some IngestError.dirNotFound) := rfl

/-- Claim C7: when the parse or the write of one file of the batch fails, the
run stops there: the entries after the failing one are never processed, so the
outcome does not depend on them, while the rows of the files ingested before
the failure stay in the table, with no rollback.  The failure is a parse error
when pd.read_csv raised on the file and a write error when the store rejected
its df.to_sql call. -/
theorem midbatch_failure_keeps_earlier_rows (w : DirEntry → Bool)
    (pre : List DirEntry) (bad : DirEntry) (post : List DirEntry) (db : Database)
    (hpre : ∀ f ∈ pre, validEntryW w f) (hq : qualifies bad = true)
    (hbad : bad.parsed = none ∨ w bad = false) :
    ingestDataW w (some (pre ++ bad :: post)) db =
      ({ db with daily_reports := db.daily_reports ++ ingestRows pre },
        some (abortError bad)) := by
  simp [ingestDataW, ingestLoopW_eq_traceW,
    ingestTraceW_abort w pre bad post hpre hq hbad]

/-- Witness for C7, once for each failure mode: with a good file before and
after the failing one, a rejected write of the middle file ends the run in a
write error holding only the first rows, and an unparseable middle file ends
it in a parse error holding only the first rows. -/
theorem midbatch_failure_keeps_earlier_rows_witness :
    qualifies (DirEntry.mk "b.csv" (some [["5"]])) = true ∧
      ingestDataW (fun f => f.name != "b.csv")
          (some [DirEntry.mk "a.csv" (some [["1"]]),
            DirEntry.mk "b.csv" (some [["5"]]),
            DirEntry.mk "c.csv" (some [["9"]])]) ⟨[], []⟩ =
        (⟨[["1"]], []⟩, some IngestError.writeError) ∧
      ingestDataW (fun _ => true)
          (some [DirEntry.mk "a.csv" (some [["1"]]), DirEntry.mk "b.csv" none,
            DirEntry.mk "c.csv" (some [["9"]])]) ⟨[], []⟩ =
        (⟨[["1"]], []⟩, some IngestError.parseError) := by
  refine ⟨by decide, ?_, ?_⟩
  · have h := midbatch_failure_keeps_earlier_rows (fun f => f.name != "b.csv")
      [DirEntry.mk "a.csv" (some [["1"]])] (DirEntry.mk "b.csv" (some [["5"]]))
      [DirEntry.mk "c.csv" (some [["9"]])] ⟨[], []⟩ (by decide) (by decide)
      (Or.inr (by decide))
    simpa [ingestRows, entryRows, abortError] using h
  · have h := midbatch_failure_keeps_earlier_rows (fun _ => true)
      [DirEntry.mk "a.csv" (some [["1"]])] (DirEntry.mk "b.csv" none)
      [DirEntry.mk "c.csv" (some [["9"]])] ⟨[], []⟩ (by decide) (by decide)
      (Or.inl rfl)
    simpa [ingestRows, entryRows, abortError] using h

/-- Claim C10: the .csv suffix test is case-sensitive: a name ending in the
uppercase variant .CSV does not pass it, and an entry bearing such a name is
skipped by the ingestion loop like any other non-matching entry; the loop only
ever examines the immediate entries of the listing it is given. -/
theorem csv_suffix_case_sensitive :
    endswith "report.CSV" ".csv" = false ∧
      ∀ (f : DirEntry), f.name = "report.CSV" →
        ∀ (pre post : List DirEntry) (db : Database),
          ingestLoop (pre ++ f :: post) db = ingestLoop (pre ++ post) db := by
  refine ⟨by decide, ?_⟩
  intro f hf pre post db
  have hq : qualifies f = false := by
    unfold qualifies
    rw [hf]
    decide
  rw [ingestLoop_eq_trace, ingestLoop_eq_trace, ingestTrace_skip f hq]

/-- Witness for C10: an uppercase .CSV file is skipped even though its content
would parse. -/
theorem csv_suffix_case_sensitive_witness :
    endswith "report.CSV" ".csv" = false ∧
      ingestLoop [DirEntry.mk "report.CSV" (some [["1"]])] ⟨[], []⟩ =
        ingestLoop [] ⟨[], []⟩ := by
  refine ⟨csv_suffix_case_sensitive.1, ?_⟩
  exact csv_suffix_case_sensitive.2 (DirEntry.mk "report.CSV" (some [["1"]])) rfl
    [] [] ⟨[], []⟩

/-- Claim C2: the correlation unit queries the cleaned_data table, projecting
exactly the confirmed and deaths columns, and computes the pairwise
correlation matrix of those two columns; the daily_reports table written by
ingestion plays no part in the result. -/
theorem correlation_reads_cleaned_data (db : Database) :
    (correlationUnit db).2 =
        corrMatrix (db.cleaned_data.map CleanedRow.confirmed)
          (db.cleaned_data.map CleanedRow.deaths) ∧
      ∀ rep : List Row,
        (correlationUnit { db with daily_reports := rep }).2 =
          (correlationUnit db).2 :=
  ⟨rfl, fun _ => rfl⟩

/-- Claim C3: on a table whose two numeric columns each have positive sample
variance, which requires at least two non-degenerate points, the matrix the
correlation unit returns is symmetric with unit diagonal. -/
theorem correlation_matrix_symmetric_unit_diagonal (dr : List Row)
    (rows : List CleanedRow)
    (hc : 0 < cov (rows.map CleanedRow.confirmed) (rows.map CleanedRow.confirmed))
    (hd : 0 < cov (rows.map CleanedRow.deaths) (rows.map CleanedRow.deaths)) :
    (∀ i j : Fin 2,
        (correlationUnit ⟨dr, rows⟩).2 i j = (correlationUnit ⟨dr, rows⟩).2 j i) ∧
      (correlationUnit ⟨dr, rows⟩).2 0 0 = 1 ∧
      (correlationUnit ⟨dr, rows⟩).2 1 1 = 1 := by
  have hlen : (rows.map CleanedRow.confirmed).length =
      (rows.map CleanedRow.deaths).length := by simp
  refine ⟨?_, ?_, ?_⟩
  · intro i j
    fin_cases i <;> fin_cases j
    · rfl
    · show corr (rows.map CleanedRow.confirmed) (rows.map CleanedRow.deaths) =
        corr (rows.map CleanedRow.deaths) (rows.map CleanedRow.confirmed)
      exact corr_comm _ _ hlen
    · show corr (rows.map CleanedRow.deaths) (rows.map CleanedRow.confirmed) =
        corr (rows.map CleanedRow.confirmed) (rows.map CleanedRow.deaths)
      exact (corr_comm _ _ hlen).symm
    · rfl
  · show corr (rows.map CleanedRow.confirmed) (rows.map CleanedRow.confirmed) = 1
    exact corr_self _ hc
  · show corr (rows.map CleanedRow.deaths) (rows.map CleanedRow.deaths) = 1
    exact corr_self _ hd

/-- Witness for C3: a two-row table with distinct values in both columns has a
symmetric correlation matrix with a unit diagonal entry. -/
theorem correlation_matrix_symmetric_unit_diagonal_witness :
    0 < cov ([CleanedRow.mk 0 0, CleanedRow.mk 1 2].map CleanedRow.confirmed)
        ([CleanedRow.mk 0 0, CleanedRow.mk 1 2].map CleanedRow.confirmed) ∧
      0 < cov ([CleanedRow.mk 0 0, CleanedRow.mk 1 2].map CleanedRow.deaths)
        ([CleanedRow.mk 0 0, CleanedRow.mk 1 2].map CleanedRow.deaths) ∧
      (correlationUnit ⟨[], [CleanedRow.mk 0 0, CleanedRow.mk 1 2]⟩).2 0 1 =
        (correlationUnit ⟨[], [CleanedRow.mk 0 0, CleanedRow.mk 1 2]⟩).2 1 0 ∧
      (correlationUnit ⟨[], [CleanedRow.mk 0 0, CleanedRow.mk 1 2]⟩).2 0 0 = 1 := by
  have hc : 0 < cov ([CleanedRow.mk 0 0, CleanedRow.mk 1 2].map CleanedRow.confirmed)
      ([CleanedRow.mk 0 0, CleanedRow.mk 1 2].map CleanedRow.confirmed) := by
    norm_num [cov, mean]
  have hd : 0 < cov ([CleanedRow.mk 0 0, CleanedRow.mk 1 2].map CleanedRow.deaths)
      ([CleanedRow.mk 0 0, CleanedRow.mk 1 2].map CleanedRow.deaths) := by
    norm_num [cov, mean]
  exact ⟨hc, hd,
    (correlation_matrix_symmetric_unit_diagonal [] _ hc hd).1 0 1,
    (correlation_matrix_symmetric_unit_diagonal [] _ hc hd).2.1⟩

/-- Claim C8: on the table whose confirmed column is 1, 2, 3, 4 and whose
deaths column is 2, 4, 6, 8, the correlation unit returns the coefficient one
between the two fields, in both off-diagonal cells. -/
theorem perfectly_linear_columns_correlate_to_one :
    (correlationUnit ⟨[], [CleanedRow.mk 1 2, CleanedRow.mk 2 4,
        CleanedRow.mk 3 6, CleanedRow.mk 4 8]⟩).2 0 1 = 1 ∧
      (correlationUnit ⟨[], [CleanedRow.mk 1 2, CleanedRow.mk 2 4,
        CleanedRow.mk 3 6, CleanedRow.mk 4 8]⟩).2 1 0 = 1 := by
  constructor
  · show corr [1, 2, 3, 4] [2, 4, 6, 8] = 1
    exact corr_proportional_example
  · show corr [2, 4, 6, 8] [1, 2, 3, 4] = 1
    rw [corr_comm [2, 4, 6, 8] [1, 2, 3, 4] rfl]
    exact corr_proportional_example

/-- Claim C9: the correlation unit is read-only: the store it leaves behind is
the store it was given, every table included; its only product is the
in-memory matrix, which is never written back. -/
theorem correlation_unit_read_only (db : Database) :
    (correlationUnit db).1 = db ∧
      (correlationUnit db).1.daily_reports = db.daily_reports ∧
      (correlationUnit db).1.cleaned_data = db.cleaned_data :=
  ⟨rfl, rfl, rfl⟩
